import Mathlib

/- A shallow embedding of the match-three board engine of the
gumball-matcher repository (src/client/src/lib/gameLogic.ts) together with
the invalid-swap handling of its game page component.  Randomness and
fresh-identity generation are modelled by an explicit oracle (`Rng`); the
JavaScript object graph of the swap path is modelled by a heap mapping
piece identities to piece records, so that in-place mutation of shared
piece objects is observable. -/

inductive PieceType where
  | red
  | yellow
  | blue
  | pink
  | purple
  | orange
deriving DecidableEq, Fintype

instance : Inhabited PieceType := ⟨PieceType.red⟩

def PIECE_TYPES : List PieceType :=
  [.red, .yellow, .blue, .pink, .purple, .orange]

structure GamePiece where
  id : Nat
  type : PieceType
  row : Nat
  col : Nat
deriving DecidableEq

instance : Inhabited GamePiece := ⟨⟨0, PieceType.red, 0, 0⟩⟩

abbrev Grid := List (List GamePiece)

def pieceAt (board : Grid) (row col : Nat) : GamePiece :=
  ((board[row]?).bind fun r => r[col]?).getD default

def typeAt (board : Grid) (row col : Nat) : PieceType :=
  (pieceAt board row col).type

def setCell (board : Grid) (row col : Nat) (p : GamePiece) : Grid :=
  board.set row (((board[row]?).getD []).set col p)

/- Oracle supplying the `Math.random()` draws (`pick`) and the
`Date.now()`-plus-randomness fresh identities (`fresh`) consumed by
`generateRandomPiece`; the `k`-th call of a run consumes index `k`. -/
structure Rng where
  pick : Nat → Nat
  fresh : Nat → Nat

def generateRandomPiece (rng : Rng) (k : Nat) (row col : Nat)
    (excludeTypes : List PieceType) : GamePiece :=
  let availableTypes := PIECE_TYPES.filter fun t => ¬ excludeTypes.contains t
  let type :=
    if 0 < availableTypes.length then
      availableTypes.getD (rng.pick k % availableTypes.length) default
    else
      PIECE_TYPES.getD (rng.pick k % PIECE_TYPES.length) default
  ⟨rng.fresh k, type, row, col⟩

/- Forbidden-type computation inlined in `initializeBoard` (two checks:
two-left and two-above). -/
def initForbidden (board : Grid) (row col : Nat) : List PieceType :=
  (if 2 ≤ col ∧ typeAt board row (col - 1) = typeAt board row (col - 2) then
    [typeAt board row (col - 1)]
  else []) ++
  (if 2 ≤ row ∧ typeAt board (row - 1) col = typeAt board (row - 2) col then
    [typeAt board (row - 1) col]
  else [])

def buildRowAux (rng : Rng) (size row : Nat) (board : Grid) :
    Nat → List GamePiece → List GamePiece
  | 0, acc => acc
  | n + 1, acc =>
    let col := acc.length
    let forbiddenTypes := initForbidden (board ++ [acc]) row col
    let p := generateRandomPiece rng (row * size + col) row col forbiddenTypes
    buildRowAux rng size row board n (acc ++ [p])

def buildRows (rng : Rng) (size : Nat) : Nat → Grid → Grid
  | 0, board => board
  | n + 1, board =>
    let row := board.length
    buildRows rng size n (board ++ [buildRowAux rng size row board size []])

def initializeBoard (rng : Rng) (size : Nat) : Grid :=
  buildRows rng size size []

def areAdjacent (pos1 pos2 : Nat × Nat) : Bool :=
  let rowDiff := ((pos1.1 : Int) - (pos2.1 : Int)).natAbs
  let colDiff := ((pos1.2 : Int) - (pos2.2 : Int)).natAbs
  (rowDiff == 1 && colDiff == 0) || (rowDiff == 0 && colDiff == 1)

/- JS `Set` of matched piece ids, modelled as an insertion-ordered
duplicate-free list. -/
def setAdd (s : List Nat) (x : Nat) : List Nat :=
  if s.contains x then s else s ++ [x]

def findMatches (board : Grid) : List Nat :=
  let gridSize := board.length
  let horiz :=
    (List.range gridSize).foldl (fun acc row =>
      (List.range (gridSize - 2)).foldl (fun acc col =>
        if typeAt board row col = typeAt board row (col + 1) ∧
            typeAt board row (col + 1) = typeAt board row (col + 2) then
          setAdd (setAdd (setAdd acc (pieceAt board row col).id)
              (pieceAt board row (col + 1)).id)
            (pieceAt board row (col + 2)).id
        else acc) acc) []
  (List.range gridSize).foldl (fun acc col =>
    (List.range (gridSize - 2)).foldl (fun acc row =>
      if typeAt board row col = typeAt board (row + 1) col ∧
          typeAt board (row + 1) col = typeAt board (row + 2) col then
        setAdd (setAdd (setAdd acc (pieceAt board row col).id)
            (pieceAt board (row + 1) col).id)
          (pieceAt board (row + 2) col).id
      else acc) acc) horiz

structure MatchGroup where
  positions : List (Nat × Nat)
  centerRow : ℚ
  centerCol : ℚ
  pieceCount : Nat
deriving DecidableEq

def getCenter (positions : List (Nat × Nat)) : ℚ × ℚ :=
  let sumRow : ℚ := positions.foldl (fun s p => s + (p.1 : ℚ)) 0
  let sumCol : ℚ := positions.foldl (fun s p => s + (p.2 : ℚ)) 0
  (sumRow / (positions.length : ℚ), sumCol / (positions.length : ℚ))

/- The rightward while-walk of `findMatchPositions`; `fuel` counts the
remaining cells up to `gridSize`, so `fuel = 0` is exactly the loop bound
`c < gridSize` failing. -/
def walkRight (board : Grid) (row : Nat) (t : PieceType) :
    Nat → Nat → List (Nat × Nat)
  | _, 0 => []
  | c, fuel + 1 =>
    if typeAt board row c = t then (row, c) :: walkRight board row t (c + 1) fuel
    else []

def walkDown (board : Grid) (col : Nat) (t : PieceType) :
    Nat → Nat → List (Nat × Nat)
  | _, 0 => []
  | r, fuel + 1 =>
    if typeAt board r col = t then (r, col) :: walkDown board col t (r + 1) fuel
    else []

/- The string keys `h-row-col` / `v-row-col` of the processed set are
modelled by the triple (isHorizontal, row, col); the string encoding is
injective on these components. -/
def findMatchPositions (board : Grid) : List MatchGroup :=
  let gridSize := board.length
  let afterH :=
    (List.range gridSize).foldl (fun st row =>
      (List.range (gridSize - 2)).foldl (fun st col =>
        if typeAt board row col = typeAt board row (col + 1) ∧
            typeAt board row (col + 1) = typeAt board row (col + 2) then
          let groupKey := (true, row, col)
          if st.2.contains groupKey then st
          else
            let positions :=
              walkRight board row (typeAt board row col) col (gridSize - col)
            let center := getCenter positions
            (st.1 ++ [⟨positions, center.1, center.2, positions.length⟩],
              st.2 ++ [groupKey])
        else st) st)
      (([], []) : List MatchGroup × List (Bool × Nat × Nat))
  let afterV :=
    (List.range gridSize).foldl (fun st col =>
      (List.range (gridSize - 2)).foldl (fun st row =>
        if typeAt board row col = typeAt board (row + 1) col ∧
            typeAt board (row + 1) col = typeAt board (row + 2) col then
          let groupKey := (false, row, col)
          if st.2.contains groupKey then st
          else
            let positions :=
              walkDown board col (typeAt board row col) row (gridSize - row)
            let center := getCenter positions
            (st.1 ++ [⟨positions, center.1, center.2, positions.length⟩],
              st.2 ++ [groupKey])
        else st) st) afterH
  afterV.1

/- JS `[...new Set(l)]` keeps the first occurrence of each element. -/
def dedupFirst (l : List PieceType) : List PieceType :=
  l.foldl (fun acc t => if acc.contains t then acc else acc ++ [t]) []

def getForbiddenTypes (board : Grid) (row col : Nat) : List PieceType :=
  let gridSize := board.length
  dedupFirst (
    (if 2 ≤ col ∧ typeAt board row (col - 1) = typeAt board row (col - 2) then
      [typeAt board row (col - 1)]
    else []) ++
    (if col + 3 ≤ gridSize ∧
        typeAt board row (col + 1) = typeAt board row (col + 2) then
      [typeAt board row (col + 1)]
    else []) ++
    (if 1 ≤ col ∧ col + 2 ≤ gridSize ∧
        typeAt board row (col - 1) = typeAt board row (col + 1) then
      [typeAt board row (col - 1)]
    else []) ++
    (if 2 ≤ row ∧ typeAt board (row - 1) col = typeAt board (row - 2) col then
      [typeAt board (row - 1) col]
    else []) ++
    (if row + 3 ≤ gridSize ∧
        typeAt board (row + 1) col = typeAt board (row + 2) col then
      [typeAt board (row + 1) col]
    else []) ++
    (if 1 ≤ row ∧ row + 2 ≤ gridSize ∧
        typeAt board (row - 1) col = typeAt board (row + 1) col then
      [typeAt board (row - 1) col]
    else []))

/- Descending compaction scan of one column of
`removeMatchedAndApplyGravity`.  The counter argument is `row + 1` for the
row about to be scanned, `s` counts survivors written so far, so the write
position is `length - 1 - s`, exactly the code's `writePos`. -/
def compactLoop (matched : List Nat) (col : Nat) :
    Grid → Nat → Nat → Grid × Nat
  | b, 0, s => (b, s)
  | b, r + 1, s =>
    let piece := pieceAt b r col
    if matched.contains piece.id then compactLoop matched col b r s
    else
      let writePos := b.length - 1 - s
      compactLoop matched col
        (setCell b writePos col { piece with row := writePos }) r (s + 1)

/- Top-up refill of one column: rows `cnt - 1` down to `0` are filled, in
that order, threading the random-oracle index `k`. -/
def refillLoop (rng : Rng) (col : Nat) :
    Grid → Nat → Nat → Grid × Nat
  | b, k, 0 => (b, k)
  | b, k, cnt + 1 =>
    let forbiddenTypes := getForbiddenTypes b cnt col
    let b' := setCell b cnt col (generateRandomPiece rng k cnt col forbiddenTypes)
    refillLoop rng col b' (k + 1) cnt

def resolveColumn (rng : Rng) (matched : List Nat)
    (acc : Grid × Nat) (col : Nat) : Grid × Nat :=
  let compacted := compactLoop matched col acc.1 acc.1.length 0
  refillLoop rng col compacted.1 acc.2 (acc.1.length - compacted.2)

def removeMatchedAndApplyGravity (rng : Rng) (board : Grid)
    (matched : List Nat) : Grid :=
  ((List.range board.length).foldl (resolveColumn rng matched) (board, 0)).1

structure LevelConfig where
  level : Nat
  gridSize : Nat
  timeLimit : Int
  targetScore : Int
  initialLives : Nat
  moveLimit : Option Nat
deriving DecidableEq

def getLevelConfig (level : Nat) : LevelConfig :=
  let baseGridSize : Nat := 7
  let baseTimeLimit : Int := 120
  let baseTargetScore : Int := 1000
  { level := level
    gridSize := min (baseGridSize + level / 3) 10
    timeLimit := max (baseTimeLimit - ((level : Int) - 1) * 3) 45
    targetScore := baseTargetScore + ((level : Int) - 1) * 500
    initialLives := 3
    moveLimit := none }

def calculateScore (matchCount : Nat) : Int :=
  let baseScore : ℚ := 60 + (matchCount : ℚ) * 30
  let multiplier : ℚ :=
    if 3 < matchCount then 1 + ((matchCount : ℚ) - 3) * (1 / 2) else 1
  Int.floor (baseScore * multiplier)

/- Heap model of the JavaScript object graph: a grid cell stores a
reference (the piece id) and the heap maps ids to piece records.
`swapPieces` copies the arrays but mutates the two piece records in place,
which the heap model renders as two pointwise heap updates shared by every
alias of the board. -/
abbrev Heap := Nat → GamePiece

abbrev RefGrid := List (List Nat)

def idAt (g : RefGrid) (row col : Nat) : Nat :=
  ((g[row]?).bind fun r => r[col]?).getD 0

def setId (g : RefGrid) (row col : Nat) (i : Nat) : RefGrid :=
  g.set row (((g[row]?).getD []).set col i)

def updateHeap (h : Heap) (i : Nat) (p : GamePiece) : Heap :=
  fun j => if j = i then p else h j

def swapPieces (h : Heap) (board : RefGrid) (pos1 pos2 : Nat × Nat) :
    Heap × RefGrid :=
  let id1 := idAt board pos1.1 pos1.2
  let id2 := idAt board pos2.1 pos2.2
  let newBoard := setId (setId board pos1.1 pos1.2 id2) pos2.1 pos2.2 id1
  let h1 := updateHeap h id2 { h id2 with row := pos1.1, col := pos1.2 }
  let h2 := updateHeap h1 id1 { h1 id1 with row := pos2.1, col := pos2.2 }
  (h2, newBoard)

def materialize (h : Heap) (g : RefGrid) : Grid :=
  g.map fun r => r.map h

/- The slice of the game page component's state touched by the
swap-then-revert path. -/
structure OrchState where
  heap : Heap
  board : RefGrid
  score : Int
  lives : Int
  timeRemaining : Int
  level : Nat
  moves : Nat
  isAnimating : Bool
  gameOver : Bool
  matchedPieces : List Nat

/- The component's swap handling followed by its match check: the original
board array is saved (shallowly — the heap is shared), the swap is applied
and `moves` incremented; if the swapped board has no match the saved board
is restored, a life is lost, and the game-over flag is set from the
decremented lives. -/
def swapMove (st : OrchState) (pos1 pos2 : Nat × Nat) : OrchState :=
  let originalBoard := st.board
  let swapped := swapPieces st.heap st.board pos1 pos2
  let matchedIds := findMatches (materialize swapped.1 swapped.2)
  if matchedIds = [] then
    { st with
      heap := swapped.1
      board := originalBoard
      lives := st.lives - 1
      moves := st.moves + 1
      isAnimating := false
      gameOver := decide (st.lives - 1 ≤ 0) }
  else
    { st with
      heap := swapped.1
      board := swapped.2
      moves := st.moves + 1
      isAnimating := true
      matchedPieces := matchedIds }

/- Scoring formula exactly as the specification phrases it:
floor((60 + 30·n) · m) with m = 1 for n ≤ 3 and m = 1 + 0.5·(n − 3)
otherwise. -/
def scoreSpecFormula (n : Nat) : Int :=
  Int.floor ((60 + 30 * (n : ℚ)) *
    (if n ≤ 3 then 1 else 1 + (1 / 2) * ((n : ℚ) - 3)))

lemma calculateScore_closed (n : Nat) :
    calculateScore n =
      if 3 < n then
        60 + 30 * (n : Int) + 15 * ((n : Int) + 2) * ((n : Int) - 3)
      else 60 + 30 * (n : Int) := by
  simp only [calculateScore]
  by_cases h : 3 < n
  · simp only [h, if_true]
    have he : (60 + (n : ℚ) * 30) * (1 + ((n : ℚ) - 3) * (1 / 2)) =
        ((60 + 30 * (n : Int) + 15 * ((n : Int) + 2) * ((n : Int) - 3) : Int) : ℚ) := by
      push_cast
      ring
    rw [he, Int.floor_intCast]
  · simp only [h, if_false]
    have he : (60 + (n : ℚ) * 30) * 1 = ((60 + 30 * (n : Int) : Int) : ℚ) := by
      push_cast
      ring
    rw [he, Int.floor_intCast]

lemma calculateScore_eq_spec (n : Nat) : calculateScore n = scoreSpecFormula n := by
  simp only [calculateScore, scoreSpecFormula]
  by_cases h : 3 < n
  · have h' : ¬ n ≤ 3 := by omega
    simp only [h, if_true, h', if_false]
    congr 1
    ring
  · have h' : n ≤ 3 := by omega
    simp only [h, if_false, h', if_true]
    congr 1
    ring

lemma calculateScore_lt_succ (n : Nat) (h : 1 ≤ n) :
    calculateScore n < calculateScore (n + 1) := by
  rw [calculateScore_closed, calculateScore_closed]
  by_cases h4 : 3 < n
  · have h4' : 3 < n + 1 := by omega
    simp only [h4, h4', if_true]
    have hc : (4 : Int) ≤ (n : Int) := by exact_mod_cast h4
    push_cast
    nlinarith [hc]
  · interval_cases n <;> norm_num

lemma calculateScore_strictMono {m n : Nat} (hm : 1 ≤ m) (hmn : m < n) :
    calculateScore m < calculateScore n := by
  induction n with
  | zero => omega
  | succ k ih =>
    rcases Nat.lt_succ_iff_lt_or_eq.mp hmn with h | h
    · exact lt_trans (ih h) (calculateScore_lt_succ k (by omega))
    · subst h
      exact calculateScore_lt_succ m hm

/-- C6: `calculateScore` agrees with the spec formula floor((60+30·n)·m)
with m = 1 for n ≤ 3 and m = 1 + 0.5·(n−3) otherwise, is strictly
increasing for n ≥ 1, and takes the values 150, 270 and 600 at
n = 3, 4, 6. -/
theorem C6_calculateScore_correct :
    (∀ n : Nat, calculateScore n = scoreSpecFormula n) ∧
    (∀ m n : Nat, 1 ≤ m → m < n → calculateScore m < calculateScore n) ∧
    calculateScore 3 = 150 ∧ calculateScore 4 = 270 ∧ calculateScore 6 = 600 := by
  refine ⟨calculateScore_eq_spec, fun m n hm hmn => calculateScore_strictMono hm hmn,
    ?_, ?_, ?_⟩
  · rw [calculateScore_closed]
    norm_num
  · rw [calculateScore_closed]
    norm_num
  · rw [calculateScore_closed]
    norm_num

/-- C6 witness: the scoring theorem evaluated at concrete inputs. -/
theorem C6_calculateScore_correct_witness :
    calculateScore 5 = scoreSpecFormula 5 ∧ calculateScore 4 < calculateScore 7 :=
  ⟨C6_calculateScore_correct.1 5,
    C6_calculateScore_correct.2.1 4 7 (by norm_num) (by norm_num)⟩

/-- C7: `getLevelConfig` returns gridSize = min(7 + ⌊level/3⌋, 10),
timeLimit = max(120 − 3·(level−1), 45), targetScore = 1000 + 500·(level−1)
and initialLives = 3; level 1 gives (7, 120, 1000, 3), level 10 gives
(10, 93, 5500), gridSize saturates at 10 for level ≥ 9, and timeLimit
never drops below 45. -/
theorem C7_getLevelConfig_correct :
    getLevelConfig 1 = ⟨1, 7, 120, 1000, 3, none⟩ ∧
    (getLevelConfig 10).gridSize = 10 ∧
    (getLevelConfig 10).timeLimit = 93 ∧
    (getLevelConfig 10).targetScore = 5500 ∧
    (∀ level : Nat, 9 ≤ level → (getLevelConfig level).gridSize = 10) ∧
    (∀ level : Nat, 45 ≤ (getLevelConfig level).timeLimit) ∧
    (∀ level : Nat, (getLevelConfig level).initialLives = 3) ∧
    (∀ level : Nat,
      (getLevelConfig level).gridSize = min (7 + level / 3) 10 ∧
      (getLevelConfig level).timeLimit = max (120 - ((level : Int) - 1) * 3) 45 ∧
      (getLevelConfig level).targetScore = 1000 + ((level : Int) - 1) * 500) := by
  refine ⟨by decide, by decide, by decide, by decide, ?_, ?_, ?_, ?_⟩
  · intro level h
    simp only [getLevelConfig]
    omega
  · intro level
    simp only [getLevelConfig]
    exact le_max_right _ _
  · intro level
    rfl
  · intro level
    exact ⟨rfl, rfl, rfl⟩

/-- C7 witness: the level-config theorem evaluated at a concrete level. -/
theorem C7_getLevelConfig_correct_witness :
    (getLevelConfig 12).gridSize = 10 :=
  C7_getLevelConfig_correct.2.2.2.2.1 12 (by norm_num)

lemma foldl_eq_init {α β : Type} (f : β → α → β) (l : List α) (init : β)
    (h : ∀ acc x, x ∈ l → f acc x = acc) : l.foldl f init = init := by
  induction l generalizing init with
  | nil => rfl
  | cons a t ih =>
    rw [List.foldl_cons, h init a (by simp)]
    exact ih init (fun acc x hx => h acc x (by simp [hx]))

/-- C10: on a board with fewer than 3 rows both scanning loops, bounded by
gridSize − 2, perform no iterations: `findMatches` returns the empty set
and `findMatchPositions` the empty list. -/
theorem C10_small_board_no_matches (board : Grid) (h : board.length < 3) :
    findMatches board = [] ∧ findMatchPositions board = [] := by
  have h2 : board.length - 2 = 0 := by omega
  constructor
  · simp only [findMatches, h2, List.range_zero, List.foldl_nil]
    rw [foldl_eq_init _ _ _ (fun acc x _ => rfl),
      foldl_eq_init _ _ _ (fun acc x _ => rfl)]
  · simp only [findMatchPositions, h2, List.range_zero, List.foldl_nil]
    rw [foldl_eq_init _ _ _ (fun acc x _ => rfl),
      foldl_eq_init _ _ _ (fun acc x _ => rfl)]

def smallBoardEx : Grid :=
  [[⟨1, .red, 0, 0⟩, ⟨2, .red, 0, 1⟩], [⟨3, .red, 1, 0⟩, ⟨4, .red, 1, 1⟩]]

/-- C10 witness: a concrete 2×2 board yields no matches and no groups. -/
theorem C10_small_board_no_matches_witness :
    findMatches smallBoardEx = [] ∧ findMatchPositions smallBoardEx = [] :=
  C10_small_board_no_matches smallBoardEx (by decide)

/- Board whose row 0 is a single maximal horizontal run of four red
pieces; no other run exists anywhere. -/
def runOfFourBoard : Grid :=
  [[⟨0, .red, 0, 0⟩, ⟨1, .red, 0, 1⟩, ⟨2, .red, 0, 2⟩, ⟨3, .red, 0, 3⟩],
   [⟨4, .yellow, 1, 0⟩, ⟨5, .blue, 1, 1⟩, ⟨6, .yellow, 1, 2⟩, ⟨7, .blue, 1, 3⟩],
   [⟨8, .blue, 2, 0⟩, ⟨9, .yellow, 2, 1⟩, ⟨10, .blue, 2, 2⟩, ⟨11, .yellow, 2, 3⟩],
   [⟨12, .yellow, 3, 0⟩, ⟨13, .blue, 3, 1⟩, ⟨14, .yellow, 3, 2⟩, ⟨15, .blue, 3, 3⟩]]

/-- C2: the dedup key of `findMatchPositions` is the sliding-window
position, not the run start, so the single maximal horizontal run of four
same-type pieces in `runOfFourBoard` is reported as TWO MatchGroups — one
opened by the window at column 0 (covering all 4 cells) and one opened by
the window at column 1 (covering 3 cells) — instead of exactly one. -/
theorem C2_run_of_four_reported_twice :
    (findMatchPositions runOfFourBoard).map MatchGroup.pieceCount = [4, 3] ∧
    (findMatchPositions runOfFourBoard).map MatchGroup.positions =
      [[(0, 0), (0, 1), (0, 2), (0, 3)], [(0, 1), (0, 2), (0, 3)]] := by
  exact ⟨rfl, rfl⟩

/- Decidable well-formedness of a board: square, duplicate-free piece
identities, and every piece's coordinate fields agree with its cell. -/
def boardWellFormed (board : Grid) : Bool :=
  board.all (fun r => r.length == board.length) &&
  decide ((board.map (fun r => r.map GamePiece.id)).flatten.Nodup) &&
  ((List.range board.length).all fun r =>
    (List.range board.length).all fun c =>
      (pieceAt board r c).row == r && (pieceAt board r c).col == c)

/- A resting board (no match anywhere) one legal swap away from
`cascadeBoard`. -/
def restingBoard : Grid :=
  [[⟨0, .red, 0, 0⟩, ⟨1, .yellow, 0, 1⟩, ⟨2, .pink, 0, 2⟩, ⟨3, .yellow, 0, 3⟩],
   [⟨4, .red, 1, 0⟩, ⟨5, .orange, 1, 1⟩, ⟨6, .purple, 1, 2⟩, ⟨7, .orange, 1, 3⟩],
   [⟨8, .blue, 2, 0⟩, ⟨9, .blue, 2, 1⟩, ⟨14, .pink, 2, 2⟩, ⟨11, .yellow, 2, 3⟩],
   [⟨12, .red, 3, 0⟩, ⟨13, .yellow, 3, 1⟩, ⟨10, .blue, 3, 2⟩, ⟨15, .orange, 3, 3⟩]]

/- The post-swap board: exchanging the adjacent cells (2,2) and (3,2) of
`restingBoard` creates the horizontal blue run in row 2.  Column 0 holds
red at rows 0, 1 and 3 with a matched piece at row 2, so gravity will
stack three reds. -/
def cascadeBoard : Grid :=
  [[⟨0, .red, 0, 0⟩, ⟨1, .yellow, 0, 1⟩, ⟨2, .pink, 0, 2⟩, ⟨3, .yellow, 0, 3⟩],
   [⟨4, .red, 1, 0⟩, ⟨5, .orange, 1, 1⟩, ⟨6, .purple, 1, 2⟩, ⟨7, .orange, 1, 3⟩],
   [⟨8, .blue, 2, 0⟩, ⟨9, .blue, 2, 1⟩, ⟨10, .blue, 2, 2⟩, ⟨11, .yellow, 2, 3⟩],
   [⟨12, .red, 3, 0⟩, ⟨13, .yellow, 3, 1⟩, ⟨14, .pink, 3, 2⟩, ⟨15, .orange, 3, 3⟩]]

/- A concrete instance of the random oracle: every draw picks index 0 and
fresh identities start at 100, disjoint from the board's identities. -/
def constRng : Rng := ⟨fun _ => 0, fun k => 100 + k⟩

/-- C1 counterexample: `cascadeBoard` is well formed, arises from the
resting board `restingBoard` by one adjacent swap, its detected match is
the blue run {8, 9, 10}, yet after `removeMatchedAndApplyGravity` (with a
concrete admissible refill oracle) the resolved grid still contains a
match: gravity stacks the three surviving reds of column 0, so
`findMatches` of the resolved grid is the non-empty [0, 4, 12]. -/
theorem C1_counterexample :
    boardWellFormed cascadeBoard = true ∧
    findMatches restingBoard = [] ∧
    areAdjacent (2, 2) (3, 2) = true ∧
    cascadeBoard =
      setCell (setCell restingBoard 2 2 ⟨10, .blue, 2, 2⟩) 3 2 ⟨14, .pink, 3, 2⟩ ∧
    findMatches cascadeBoard = [8, 9, 10] ∧
    findMatches (removeMatchedAndApplyGravity constRng cascadeBoard
      (findMatches cascadeBoard)) = [0, 4, 12] := by
  refine ⟨by decide, by decide, by decide, by decide, by decide, by decide⟩

lemma length_setId (g : RefGrid) (r c i : Nat) :
    (setId g r c i).length = g.length := by
  simp [setId]

lemma rowLength_setId (g : RefGrid) (r c i r' : Nat) :
    (((setId g r c i)[r']?).getD []).length = ((g[r']?).getD []).length := by
  by_cases hr : r' = r
  · subst hr
    by_cases hlen : r' < g.length
    · have hrow : g[r']? = some (g[r']) := List.getElem?_eq_getElem hlen
      simp [setId, hrow, List.getElem?_set_self hlen]
    · rw [setId, List.set_eq_of_length_le (by omega)]
  · simp [setId, List.getElem?_set_ne (fun hh => hr hh.symm)]

lemma idAt_setId_self (g : RefGrid) (r c i : Nat)
    (hr : r < g.length) (hc : c < ((g[r]?).getD []).length) :
    idAt (setId g r c i) r c = i := by
  have hrow : g[r]? = some (g[r]) := List.getElem?_eq_getElem hr
  have hc' : c < (g[r]).length := by
    rw [hrow] at hc
    simpa using hc
  simp [idAt, setId, hrow, List.getElem?_set_self hr, List.getElem?_set_self hc']

lemma idAt_setId_ne (g : RefGrid) (r c i r' c' : Nat)
    (h : ¬(r' = r ∧ c' = c)) :
    idAt (setId g r c i) r' c' = idAt g r' c' := by
  by_cases hr : r' = r
  · subst hr
    have hc : c ≠ c' := fun hcc => h ⟨rfl, hcc.symm⟩
    by_cases hlen : r' < g.length
    · have hrow : g[r']? = some (g[r']) := List.getElem?_eq_getElem hlen
      simp [idAt, setId, hrow, List.getElem?_set_self hlen,
        List.getElem?_set_ne hc]
    · rw [setId, List.set_eq_of_length_le (by omega)]
  · simp [idAt, setId, List.getElem?_set_ne (fun hh => hr hh.symm)]

lemma length_swapPieces (h : Heap) (g : RefGrid) (p1 p2 : Nat × Nat) :
    (swapPieces h g p1 p2).2.length = g.length := by
  simp [swapPieces, setId]

lemma rowLength_swapPieces (h : Heap) (g : RefGrid) (p1 p2 : Nat × Nat)
    (r : Nat) :
    (((swapPieces h g p1 p2).2[r]?).getD []).length = ((g[r]?).getD []).length := by
  simp only [swapPieces]
  rw [rowLength_setId, rowLength_setId]

lemma swapPieces_grid_spec (h : Heap) (g : RefGrid) (p1 p2 : Nat × Nat)
    (h1r : p1.1 < g.length) (h1c : p1.2 < ((g[p1.1]?).getD []).length)
    (h2r : p2.1 < g.length) (h2c : p2.2 < ((g[p2.1]?).getD []).length)
    (hne : ¬(p1.1 = p2.1 ∧ p1.2 = p2.2)) :
    idAt (swapPieces h g p1 p2).2 p1.1 p1.2 = idAt g p2.1 p2.2 ∧
    idAt (swapPieces h g p1 p2).2 p2.1 p2.2 = idAt g p1.1 p1.2 ∧
    ∀ r c, ¬(r = p1.1 ∧ c = p1.2) → ¬(r = p2.1 ∧ c = p2.2) →
      idAt (swapPieces h g p1 p2).2 r c = idAt g r c := by
  simp only [swapPieces]
  refine ⟨?_, ?_, ?_⟩
  · rw [idAt_setId_ne _ _ _ _ _ _ hne, idAt_setId_self _ _ _ _ h1r h1c]
  · rw [idAt_setId_self]
    · rw [length_setId]
      exact h2r
    · rw [rowLength_setId]
      exact h2c
  · intro r c hc1 hc2
    rw [idAt_setId_ne _ _ _ _ _ _ hc2, idAt_setId_ne _ _ _ _ _ _ hc1]

lemma swapPieces_heap_spec (h : Heap) (g : RefGrid) (p1 p2 : Nat × Nat)
    (hid : idAt g p1.1 p1.2 ≠ idAt g p2.1 p2.2) :
    (swapPieces h g p1 p2).1 (idAt g p1.1 p1.2) =
      { h (idAt g p1.1 p1.2) with row := p2.1, col := p2.2 } ∧
    (swapPieces h g p1 p2).1 (idAt g p2.1 p2.2) =
      { h (idAt g p2.1 p2.2) with row := p1.1, col := p1.2 } ∧
    ∀ i, i ≠ idAt g p1.1 p1.2 → i ≠ idAt g p2.1 p2.2 →
      (swapPieces h g p1 p2).1 i = h i := by
  refine ⟨?_, ?_, ?_⟩
  · simp [swapPieces, updateHeap, hid]
  · simp [swapPieces, updateHeap, Ne.symm hid]
  · intro i hi1 hi2
    simp [swapPieces, updateHeap, hi1, hi2]

lemma swapPieces_heap_self (h : Heap) (g : RefGrid) (p : Nat × Nat) :
    (swapPieces h g p p).1 (idAt g p.1 p.2) =
      { h (idAt g p.1 p.2) with row := p.1, col := p.2 } ∧
    ∀ i, i ≠ idAt g p.1 p.2 → (swapPieces h g p p).1 i = h i := by
  constructor
  · simp [swapPieces, updateHeap]
  · intro i hi
    simp [swapPieces, updateHeap, hi]

lemma swapPieces_grid_self (h : Heap) (g : RefGrid) (p : Nat × Nat)
    (hr : p.1 < g.length) (hc : p.2 < ((g[p.1]?).getD []).length) :
    idAt (swapPieces h g p p).2 p.1 p.2 = idAt g p.1 p.2 := by
  simp only [swapPieces]
  rw [idAt_setId_self]
  · rw [length_setId]
    exact hr
  · rw [rowLength_setId]
    exact hc

lemma gamePiece_set_coords_self (x : GamePiece) (r c : Nat)
    (hr : x.row = r) (hc : x.col = c) :
    ({ x with row := r, col := c } : GamePiece) = x := by
  cases x
  simp_all

lemma gamePiece_overwrite_coords (x : GamePiece) (r c r₂ c₂ : Nat)
    (hr : x.row = r₂) (hc : x.col = c₂) :
    ({ ({ x with row := r, col := c } : GamePiece) with
        row := r₂, col := c₂ } : GamePiece) = x := by
  cases x
  simp_all

/-- C8: `swapPieces` copies only the outer and row arrays: the swapped
cells of the returned grid hold the very same piece references the input
grid held (exchanged), every other cell is unchanged, and the two pieces'
row/col fields are mutated in place on the single shared heap — so the
piece reachable from the caller's un-swapped input grid at pos1 already
carries pos2's coordinates after the call. -/
theorem C8_swapPieces_aliases_and_mutates (h : Heap) (g : RefGrid)
    (p1 p2 : Nat × Nat)
    (h1r : p1.1 < g.length) (h1c : p1.2 < ((g[p1.1]?).getD []).length)
    (h2r : p2.1 < g.length) (h2c : p2.2 < ((g[p2.1]?).getD []).length)
    (hid : idAt g p1.1 p1.2 ≠ idAt g p2.1 p2.2) :
    idAt (swapPieces h g p1 p2).2 p1.1 p1.2 = idAt g p2.1 p2.2 ∧
    idAt (swapPieces h g p1 p2).2 p2.1 p2.2 = idAt g p1.1 p1.2 ∧
    (∀ r c, ¬(r = p1.1 ∧ c = p1.2) → ¬(r = p2.1 ∧ c = p2.2) →
      idAt (swapPieces h g p1 p2).2 r c = idAt g r c) ∧
    (swapPieces h g p1 p2).1 (idAt g p1.1 p1.2) =
      { h (idAt g p1.1 p1.2) with row := p2.1, col := p2.2 } ∧
    (swapPieces h g p1 p2).1 (idAt g p2.1 p2.2) =
      { h (idAt g p2.1 p2.2) with row := p1.1, col := p1.2 } ∧
    (∀ i, i ≠ idAt g p1.1 p1.2 → i ≠ idAt g p2.1 p2.2 →
      (swapPieces h g p1 p2).1 i = h i) := by
  have hne : ¬(p1.1 = p2.1 ∧ p1.2 = p2.2) := by
    rintro ⟨a, b⟩
    rw [a, b] at hid
    exact hid rfl
  obtain ⟨hg1, hg2, hg3⟩ := swapPieces_grid_spec h g p1 p2 h1r h1c h2r h2c hne
  obtain ⟨hh1, hh2, hh3⟩ := swapPieces_heap_spec h g p1 p2 hid
  exact ⟨hg1, hg2, hg3, hh1, hh2, hh3⟩

def exRefBoard : RefGrid := [[1, 2], [3, 4]]

def exHeap : Heap := fun i =>
  if i = 1 then ⟨1, .red, 0, 0⟩
  else if i = 2 then ⟨2, .blue, 0, 1⟩
  else if i = 3 then ⟨3, .yellow, 1, 0⟩
  else if i = 4 then ⟨4, .pink, 1, 1⟩
  else default

/-- C8 witness: on a concrete 2×2 board, the piece referenced by the input
grid at (0,0) carries the coordinates (0,1) after the swap, and the output
grid's cell (0,0) holds the reference the input grid had at (0,1). -/
theorem C8_swapPieces_aliases_and_mutates_witness :
    (swapPieces exHeap exRefBoard (0, 0) (0, 1)).1 (idAt exRefBoard 0 0) =
      { exHeap (idAt exRefBoard 0 0) with row := 0, col := 1 } ∧
    idAt (swapPieces exHeap exRefBoard (0, 0) (0, 1)).2 0 0 =
      idAt exRefBoard 0 1 := by
  have hmain := C8_swapPieces_aliases_and_mutates exHeap exRefBoard (0, 0) (0, 1)
    (by decide) (by decide) (by decide) (by decide) (by decide)
  exact ⟨hmain.2.2.2.1, hmain.1⟩

def swapTwice (h : Heap) (g : RefGrid) (p1 p2 : Nat × Nat) : Heap × RefGrid :=
  swapPieces (swapPieces h g p1 p2).1 (swapPieces h g p1 p2).2 p1 p2

/-- C5: swapping the same pair of in-bounds positions twice restores, at
both positions, the original piece references and restores both pieces'
full records (identity, type, row and col), given the data-model
consistency that each piece's stored coordinates agree with its cell. -/
theorem C5_swapPieces_self_inverse (h : Heap) (g : RefGrid) (p1 p2 : Nat × Nat)
    (h1r : p1.1 < g.length) (h1c : p1.2 < ((g[p1.1]?).getD []).length)
    (h2r : p2.1 < g.length) (h2c : p2.2 < ((g[p2.1]?).getD []).length)
    (hc1 : (h (idAt g p1.1 p1.2)).row = p1.1 ∧ (h (idAt g p1.1 p1.2)).col = p1.2)
    (hc2 : (h (idAt g p2.1 p2.2)).row = p2.1 ∧ (h (idAt g p2.1 p2.2)).col = p2.2) :
    idAt (swapTwice h g p1 p2).2 p1.1 p1.2 = idAt g p1.1 p1.2 ∧
    idAt (swapTwice h g p1 p2).2 p2.1 p2.2 = idAt g p2.1 p2.2 ∧
    (swapTwice h g p1 p2).1 (idAt g p1.1 p1.2) = h (idAt g p1.1 p1.2) ∧
    (swapTwice h g p1 p2).1 (idAt g p2.1 p2.2) = h (idAt g p2.1 p2.2) := by
  by_cases hpp : p1 = p2
  · subst hpp
    have hgs : idAt (swapPieces h g p1 p1).2 p1.1 p1.2 = idAt g p1.1 p1.2 :=
      swapPieces_grid_self h g p1 h1r h1c
    have hgs2 : idAt (swapTwice h g p1 p1).2 p1.1 p1.2 = idAt g p1.1 p1.2 := by
      rw [swapTwice]
      rw [swapPieces_grid_self _ _ _ (by rw [length_swapPieces]; exact h1r)
        (by rw [rowLength_swapPieces]; exact h1c), hgs]
    have hh1 := (swapPieces_heap_self h g p1).1
    have kh1 :=
      (swapPieces_heap_self (swapPieces h g p1 p1).1 (swapPieces h g p1 p1).2 p1).1
    rw [hgs, hh1] at kh1
    have hrestore : (swapTwice h g p1 p1).1 (idAt g p1.1 p1.2) =
        h (idAt g p1.1 p1.2) := by
      rw [swapTwice, kh1]
      exact gamePiece_overwrite_coords _ p1.1 p1.2 p1.1 p1.2 hc1.1 hc1.2
    exact ⟨hgs2, hgs2, hrestore, hrestore⟩
  · have hidne : idAt g p1.1 p1.2 ≠ idAt g p2.1 p2.2 := by
      intro he
      apply hpp
      have a1 := hc1.1
      have a2 := hc1.2
      rw [he] at a1 a2
      exact Prod.ext (a1.symm.trans hc2.1).symm.symm ((a2.symm.trans hc2.2))
    have hne : ¬(p1.1 = p2.1 ∧ p1.2 = p2.2) := by
      rintro ⟨a, b⟩
      exact hpp (Prod.ext a b)
    obtain ⟨hg1, hg2, hg3⟩ := swapPieces_grid_spec h g p1 p2 h1r h1c h2r h2c hne
    obtain ⟨hh1, hh2, hh3⟩ := swapPieces_heap_spec h g p1 p2 hidne
    have h1r₂ : p1.1 < (swapPieces h g p1 p2).2.length := by
      rw [length_swapPieces]
      exact h1r
    have h1c₂ : p1.2 < (((swapPieces h g p1 p2).2[p1.1]?).getD []).length := by
      rw [rowLength_swapPieces]
      exact h1c
    have h2r₂ : p2.1 < (swapPieces h g p1 p2).2.length := by
      rw [length_swapPieces]
      exact h2r
    have h2c₂ : p2.2 < (((swapPieces h g p1 p2).2[p2.1]?).getD []).length := by
      rw [rowLength_swapPieces]
      exact h2c
    have hidne₂ : idAt (swapPieces h g p1 p2).2 p1.1 p1.2 ≠
        idAt (swapPieces h g p1 p2).2 p2.1 p2.2 := by
      rw [hg1, hg2]
      exact Ne.symm hidne
    obtain ⟨kg1, kg2, kg3⟩ := swapPieces_grid_spec (swapPieces h g p1 p2).1
      (swapPieces h g p1 p2).2 p1 p2 h1r₂ h1c₂ h2r₂ h2c₂ hne
    obtain ⟨kh1, kh2, kh3⟩ := swapPieces_heap_spec (swapPieces h g p1 p2).1
      (swapPieces h g p1 p2).2 p1 p2 hidne₂
    rw [hg1, hh2] at kh1
    rw [hg2, hh1] at kh2
    refine ⟨?_, ?_, ?_, ?_⟩
    · rw [swapTwice, kg1, hg2]
    · rw [swapTwice, kg2, hg1]
    · rw [swapTwice, kh2]
      exact gamePiece_overwrite_coords _ p2.1 p2.2 p1.1 p1.2 hc1.1 hc1.2
    · rw [swapTwice, kh1]
      exact gamePiece_overwrite_coords _ p1.1 p1.2 p2.1 p2.2 hc2.1 hc2.2

/-- C5 witness: the double-swap theorem evaluated on a concrete board. -/
theorem C5_swapPieces_self_inverse_witness :
    idAt (swapTwice exHeap exRefBoard (0, 0) (0, 1)).2 0 0 = idAt exRefBoard 0 0 ∧
    (swapTwice exHeap exRefBoard (0, 0) (0, 1)).1 (idAt exRefBoard 0 0) =
      exHeap (idAt exRefBoard 0 0) := by
  have hmain := C5_swapPieces_self_inverse exHeap exRefBoard (0, 0) (0, 1)
    (by decide) (by decide) (by decide) (by decide) (by decide) (by decide)
  exact ⟨hmain.1, hmain.2.2.1⟩

/-- C4 amended: when a swap produces no match, the component restores the
board array exactly (each cell holds its pre-swap piece reference, hence
its pre-swap identity and type), decrements lives by exactly 1, leaves
score, level and time unchanged, increments moves (from the swap itself),
clears the animation flag, and sets the game-over flag exactly when the
decremented lives reach 0 — but the two swapped pieces' row/col fields are
NOT restored: the saved original board shares the piece objects mutated by
`swapPieces`, so each of the two pieces keeps the other cell's
coordinates. -/
theorem C4_invalid_swap_revert_amended (st : OrchState) (p1 p2 : Nat × Nat)
    (_hadj : areAdjacent p1 p2 = true)
    (hid : idAt st.board p1.1 p1.2 ≠ idAt st.board p2.1 p2.2)
    (hlives : 1 ≤ st.lives)
    (hnm : findMatches (materialize (swapPieces st.heap st.board p1 p2).1
      (swapPieces st.heap st.board p1 p2).2) = []) :
    (swapMove st p1 p2).board = st.board ∧
    (swapMove st p1 p2).score = st.score ∧
    (swapMove st p1 p2).level = st.level ∧
    (swapMove st p1 p2).timeRemaining = st.timeRemaining ∧
    (swapMove st p1 p2).lives = st.lives - 1 ∧
    (swapMove st p1 p2).moves = st.moves + 1 ∧
    (swapMove st p1 p2).isAnimating = false ∧
    ((swapMove st p1 p2).gameOver = true ↔ st.lives = 1) ∧
    (∀ i, ((swapMove st p1 p2).heap i).id = (st.heap i).id ∧
      ((swapMove st p1 p2).heap i).type = (st.heap i).type) ∧
    (swapMove st p1 p2).heap (idAt st.board p1.1 p1.2) =
      { st.heap (idAt st.board p1.1 p1.2) with row := p2.1, col := p2.2 } ∧
    (swapMove st p1 p2).heap (idAt st.board p2.1 p2.2) =
      { st.heap (idAt st.board p2.1 p2.2) with row := p1.1, col := p1.2 } := by
  obtain ⟨hh1, hh2, hh3⟩ := swapPieces_heap_spec st.heap st.board p1 p2 hid
  have hidtype : ∀ i,
      ((swapPieces st.heap st.board p1 p2).1 i).id = (st.heap i).id ∧
      ((swapPieces st.heap st.board p1 p2).1 i).type = (st.heap i).type := by
    intro i
    by_cases e1 : i = idAt st.board p1.1 p1.2
    · subst e1
      rw [hh1]
      exact ⟨rfl, rfl⟩
    · by_cases e2 : i = idAt st.board p2.1 p2.2
      · subst e2
        rw [hh2]
        exact ⟨rfl, rfl⟩
      · rw [hh3 i e1 e2]
        exact ⟨rfl, rfl⟩
  have hstep : swapMove st p1 p2 =
      { st with
        heap := (swapPieces st.heap st.board p1 p2).1
        lives := st.lives - 1
        moves := st.moves + 1
        isAnimating := false
        gameOver := decide (st.lives - 1 ≤ 0) } := by
    unfold swapMove
    simp only [hnm]
    simp
  rw [hstep]
  refine ⟨rfl, rfl, rfl, rfl, rfl, rfl, rfl, ?_, fun i => hidtype i, hh1, hh2⟩
  show decide (st.lives - 1 ≤ 0) = true ↔ st.lives = 1
  rw [decide_eq_true_iff]
  omega

def exState : OrchState :=
  { heap := exHeap
    board := exRefBoard
    score := 0
    lives := 3
    timeRemaining := 100
    level := 1
    moves := 0
    isAnimating := false
    gameOver := false
    matchedPieces := [] }

/-- C4 counterexample: an invalid swap of the adjacent cells (0,0)-(0,1)
on a 2×2 board restores the board array and costs one life, but the piece
found at cell (0,0) after the revert does not carry its pre-swap
coordinates: its col field is 1 (mutated in place by the swap), not its
original 0, refuting the claim that every piece keeps its pre-swap row and
col at its original cell. -/
theorem C4_invalid_swap_revert_counterexample :
    areAdjacent (0, 0) (0, 1) = true ∧
    findMatches (materialize (swapPieces exState.heap exState.board (0, 0) (0, 1)).1
      (swapPieces exState.heap exState.board (0, 0) (0, 1)).2) = [] ∧
    (swapMove exState (0, 0) (0, 1)).board = exState.board ∧
    (swapMove exState (0, 0) (0, 1)).lives = 2 ∧
    (exState.heap (idAt exState.board 0 0)).col = 0 ∧
    ((swapMove exState (0, 0) (0, 1)).heap
      (idAt (swapMove exState (0, 0) (0, 1)).board 0 0)).col = 1 := by
  refine ⟨by decide, by decide, by decide, by decide, by decide, by decide⟩

/-- C4 witness: the amended invalid-swap theorem evaluated on the concrete
state. -/
theorem C4_invalid_swap_revert_amended_witness :
    (swapMove exState (0, 0) (0, 1)).board = exState.board ∧
    (swapMove exState (0, 0) (0, 1)).lives = exState.lives - 1 ∧
    (swapMove exState (0, 0) (0, 1)).heap (idAt exState.board 0 0) =
      { exState.heap (idAt exState.board 0 0) with row := 0, col := 1 } := by
  have hmain := C4_invalid_swap_revert_amended exState (0, 0) (0, 1)
    (by decide) (by decide) (by decide) (by decide)
  exact ⟨hmain.1, hmain.2.2.2.2.1, hmain.2.2.2.2.2.2.2.2.2.1⟩

lemma contains_iff_mem_pt (l : List PieceType) (a : PieceType) :
    l.contains a = true ↔ a ∈ l :=
  List.elem_iff

lemma contains_iff_mem_nat (l : List Nat) (a : Nat) :
    l.contains a = true ↔ a ∈ l :=
  List.elem_iff

lemma length_setCell (b : Grid) (r c : Nat) (p : GamePiece) :
    (setCell b r c p).length = b.length := by
  simp [setCell]

lemma rowLength_setCell (b : Grid) (r c : Nat) (p : GamePiece) (r₂ : Nat) :
    (((setCell b r c p)[r₂]?).getD []).length = ((b[r₂]?).getD []).length := by
  by_cases hr : r₂ = r
  · subst hr
    by_cases hlen : r₂ < b.length
    · have hrow : b[r₂]? = some (b[r₂]) := List.getElem?_eq_getElem hlen
      simp [setCell, hrow, List.getElem?_set_self hlen]
    · rw [setCell, List.set_eq_of_length_le (by omega)]
  · simp [setCell, List.getElem?_set_ne (fun hh => hr hh.symm)]

lemma pieceAt_setCell_self (b : Grid) (r c : Nat) (p : GamePiece)
    (hr : r < b.length) (hc : c < ((b[r]?).getD []).length) :
    pieceAt (setCell b r c p) r c = p := by
  have hrow : b[r]? = some (b[r]) := List.getElem?_eq_getElem hr
  have hc' : c < (b[r]).length := by
    rw [hrow] at hc
    simpa using hc
  simp [pieceAt, setCell, hrow, List.getElem?_set_self hr,
    List.getElem?_set_self hc']

lemma pieceAt_setCell_ne (b : Grid) (r c : Nat) (p : GamePiece) (r₂ c₂ : Nat)
    (h : ¬(r₂ = r ∧ c₂ = c)) :
    pieceAt (setCell b r c p) r₂ c₂ = pieceAt b r₂ c₂ := by
  by_cases hr : r₂ = r
  · subst hr
    have hc : c ≠ c₂ := fun hcc => h ⟨rfl, hcc.symm⟩
    by_cases hlen : r₂ < b.length
    · have hrow : b[r₂]? = some (b[r₂]) := List.getElem?_eq_getElem hlen
      simp [pieceAt, setCell, hrow, List.getElem?_set_self hlen,
        List.getElem?_set_ne hc]
    · rw [setCell, List.set_eq_of_length_le (by omega)]
  · simp [pieceAt, setCell, List.getElem?_set_ne (fun hh => hr hh.symm)]

/- When the exclusion list leaves at least one admissible type, the
generated piece's type is drawn from the filtered list, hence outside the
exclusion list (the fallback branch is not taken). -/
lemma generateRandomPiece_type_avoids (rng : Rng) (k row col : Nat)
    (ex : List PieceType)
    (hne : PIECE_TYPES.filter (fun t => ¬ ex.contains t) ≠ []) :
    (generateRandomPiece rng k row col ex).type ∉ ex := by
  intro hmem
  have hlen : 0 < (PIECE_TYPES.filter (fun t => ¬ ex.contains t)).length :=
    List.length_pos.mpr hne
  have htype : (generateRandomPiece rng k row col ex).type =
      (PIECE_TYPES.filter (fun t => ¬ ex.contains t)).getD
        (rng.pick k % (PIECE_TYPES.filter (fun t => ¬ ex.contains t)).length)
        default := by
    simp only [generateRandomPiece, hlen, if_true]
  have hidx : rng.pick k % (PIECE_TYPES.filter (fun t => ¬ ex.contains t)).length <
      (PIECE_TYPES.filter (fun t => ¬ ex.contains t)).length :=
    Nat.mod_lt _ hlen
  have hget : (PIECE_TYPES.filter (fun t => ¬ ex.contains t)).getD
      (rng.pick k % (PIECE_TYPES.filter (fun t => ¬ ex.contains t)).length)
      default ∈ PIECE_TYPES.filter (fun t => ¬ ex.contains t) := by
    rw [List.getD_eq_getElem?_getD, List.getElem?_eq_getElem hidx]
    exact List.getElem_mem _
  rw [htype] at hmem
  have hfilter := (List.mem_filter.mp hget).2
  rw [decide_eq_true_iff] at hfilter
  exact hfilter (contains_iff_mem_pt ex _ |>.mpr hmem)

lemma initForbidden_length_le (board : Grid) (r c : Nat) :
    (initForbidden board r c).length ≤ 2 := by
  unfold initForbidden
  split_ifs <;> simp

lemma filter_piece_types_ne_nil (ex : List PieceType) (hex : ex.length ≤ 2) :
    PIECE_TYPES.filter (fun t => ¬ ex.contains t) ≠ [] := by
  rcases ex with _ | ⟨a, _ | ⟨b, _ | ⟨c, t⟩⟩⟩
  · decide
  · revert a
    decide
  · revert a b
    decide
  · simp at hex

lemma buildRowAux_length (rng : Rng) (size row : Nat) (board : Grid) :
    ∀ n acc, (buildRowAux rng size row board n acc).length = acc.length + n := by
  intro n
  induction n with
  | zero => intro acc; rfl
  | succ n ih =>
    intro acc
    simp only [buildRowAux]
    rw [ih]
    simp
    omega

lemma buildRowAux_stable (rng : Rng) (size row : Nat) (board : Grid) :
    ∀ n acc c, c < acc.length →
      (buildRowAux rng size row board n acc)[c]? = acc[c]? := by
  intro n
  induction n with
  | zero => intro acc c hc; rfl
  | succ n ih =>
    intro acc c hc
    simp only [buildRowAux]
    rw [ih _ c (by simp; omega)]
    exact List.getElem?_append_left hc

lemma buildRowAux_take (rng : Rng) (size row : Nat) (board : Grid) :
    ∀ n acc c, c ≤ acc.length →
      (buildRowAux rng size row board n acc).take c = acc.take c := by
  intro n
  induction n with
  | zero => intro acc c hc; rfl
  | succ n ih =>
    intro acc c hc
    simp only [buildRowAux]
    rw [ih _ c (by simp; omega), List.take_append_of_le_length hc]

lemma buildRowAux_entry (rng : Rng) (size row : Nat) (board : Grid) :
    ∀ n acc c, acc.length ≤ c → c < acc.length + n →
      (buildRowAux rng size row board n acc)[c]? =
        some (generateRandomPiece rng (row * size + c) row c
          (initForbidden
            (board ++ [(buildRowAux rng size row board n acc).take c]) row c)) := by
  intro n
  induction n with
  | zero => intro acc c h1 h2; omega
  | succ n ih =>
    intro acc c h1 h2
    by_cases hc : c = acc.length
    · subst hc
      simp only [buildRowAux]
      rw [buildRowAux_stable rng size row board n _ acc.length (by simp),
        List.getElem?_concat_length,
        buildRowAux_take rng size row board n _ acc.length (by simp),
        List.take_append_of_le_length (le_refl _), List.take_length]
    · simp only [buildRowAux]
      exact ih _ c (by simp; omega) (by simp; omega)

lemma buildRows_length (rng : Rng) (size : Nat) :
    ∀ n board, (buildRows rng size n board).length = board.length + n := by
  intro n
  induction n with
  | zero => intro b; rfl
  | succ n ih =>
    intro b
    simp only [buildRows]
    rw [ih]
    simp
    omega

lemma buildRows_stable (rng : Rng) (size : Nat) :
    ∀ n board r, r < board.length →
      (buildRows rng size n board)[r]? = board[r]? := by
  intro n
  induction n with
  | zero => intro b r hr; rfl
  | succ n ih =>
    intro b r hr
    simp only [buildRows]
    rw [ih _ r (by simp; omega)]
    exact List.getElem?_append_left hr

lemma buildRows_take (rng : Rng) (size : Nat) :
    ∀ n board r, r ≤ board.length →
      (buildRows rng size n board).take r = board.take r := by
  intro n
  induction n with
  | zero => intro b r hr; rfl
  | succ n ih =>
    intro b r hr
    simp only [buildRows]
    rw [ih _ r (by simp; omega), List.take_append_of_le_length hr]

lemma buildRows_row (rng : Rng) (size : Nat) :
    ∀ n board r, board.length ≤ r → r < board.length + n →
      (buildRows rng size n board)[r]? =
        some (buildRowAux rng size r ((buildRows rng size n board).take r)
          size []) := by
  intro n
  induction n with
  | zero => intro b r h1 h2; omega
  | succ n ih =>
    intro b r h1 h2
    by_cases hr : r = b.length
    · subst hr
      simp only [buildRows]
      rw [buildRows_stable rng size n _ b.length (by simp),
        List.getElem?_concat_length,
        buildRows_take rng size n _ b.length (by simp),
        List.take_append_of_le_length (le_refl _), List.take_length]
    · simp only [buildRows]
      exact ih _ r (by simp; omega) (by simp; omega)

lemma initializeBoard_length (rng : Rng) (size : Nat) :
    (initializeBoard rng size).length = size := by
  unfold initializeBoard
  rw [buildRows_length]
  simp

lemma initializeBoard_row (rng : Rng) (size r : Nat) (hr : r < size) :
    (initializeBoard rng size)[r]? =
      some (buildRowAux rng size r ((initializeBoard rng size).take r)
        size []) := by
  unfold initializeBoard
  exact buildRows_row rng size size [] r (by simp) (by simpa using hr)

lemma initializeBoard_rowLength (rng : Rng) (size r : Nat) (hr : r < size) :
    (((initializeBoard rng size)[r]?).getD []).length = size := by
  rw [initializeBoard_row rng size r hr]
  simp [buildRowAux_length]

/- The forbidden-type computation at a cell only reads already-generated
cells (two left in the same row, two directly above), so reading from the
partially built board and from the finished board agree. -/
lemma initForbidden_take (B : Grid) (rowR : List GamePiece) (r c : Nat)
    (hr : r < B.length) (hrow : B[r]? = some rowR) :
    initForbidden (B.take r ++ [rowR.take c]) r c = initForbidden B r c := by
  have hlenr : (B.take r).length = r := List.length_take_of_le (le_of_lt hr)
  have hA : ∀ k, k < c → typeAt (B.take r ++ [rowR.take c]) r k = typeAt B r k := by
    intro k hk
    unfold typeAt pieceAt
    rw [List.getElem?_append_right (le_of_eq hlenr), hlenr, Nat.sub_self, hrow]
    simp [List.getElem?_take_of_lt hk]
  have hB : ∀ j, j < r → ∀ k,
      typeAt (B.take r ++ [rowR.take c]) j k = typeAt B j k := by
    intro j hj k
    unfold typeAt pieceAt
    rw [List.getElem?_append_left (by rw [hlenr]; exact hj),
      List.getElem?_take_of_lt hj]
  unfold initForbidden
  by_cases hc2 : 2 ≤ c
  · by_cases hr2 : 2 ≤ r
    · simp only [hA (c - 1) (by omega), hA (c - 2) (by omega),
        hB (r - 1) (by omega), hB (r - 2) (by omega)]
    · simp only [hA (c - 1) (by omega), hA (c - 2) (by omega), hr2, false_and,
        if_false]
  · by_cases hr2 : 2 ≤ r
    · simp only [hB (r - 1) (by omega), hB (r - 2) (by omega), hc2, false_and,
        if_false]
    · simp only [hc2, hr2, false_and, if_false]

lemma initializeBoard_cell (rng : Rng) (size r c : Nat)
    (hr : r < size) (hc : c < size) :
    pieceAt (initializeBoard rng size) r c =
      generateRandomPiece rng (r * size + c) r c
        (initForbidden (initializeBoard rng size) r c) := by
  have hrow := initializeBoard_row rng size r hr
  have hentry := buildRowAux_entry rng size r
    ((initializeBoard rng size).take r) size [] c (by simp) (by simpa using hc)
  have hlen : r < (initializeBoard rng size).length := by
    rw [initializeBoard_length]
    exact hr
  unfold pieceAt
  rw [hrow, Option.some_bind, hentry, Option.getD_some]
  congr 1
  exact initForbidden_take (initializeBoard rng size)
    (buildRowAux rng size r ((initializeBoard rng size).take r) size [])
    r c hlen hrow

lemma initializeBoard_type_avoids (rng : Rng) (size r c : Nat)
    (hr : r < size) (hc : c < size) :
    (pieceAt (initializeBoard rng size) r c).type ∉
      initForbidden (initializeBoard rng size) r c := by
  rw [initializeBoard_cell rng size r c hr hc]
  exact generateRandomPiece_type_avoids rng (r * size + c) r c _
    (filter_piece_types_ne_nil _
      (initForbidden_length_le (initializeBoard rng size) r c))

lemma initializeBoard_no_htriple (rng : Rng) (size r c : Nat)
    (hr : r < size) (hc : c + 2 < size) :
    ¬ (typeAt (initializeBoard rng size) r c =
        typeAt (initializeBoard rng size) r (c + 1) ∧
      typeAt (initializeBoard rng size) r (c + 1) =
        typeAt (initializeBoard rng size) r (c + 2)) := by
  rintro ⟨h1, h2⟩
  have havoid := initializeBoard_type_avoids rng size r (c + 2) hr (by omega)
  apply havoid
  unfold initForbidden
  apply List.mem_append_left
  rw [if_pos]
  · show typeAt (initializeBoard rng size) r (c + 2) ∈ [_]
    rw [← h2]
    exact List.mem_singleton.mpr rfl
  · exact ⟨by omega, h1.symm⟩

lemma initializeBoard_no_vtriple (rng : Rng) (size r c : Nat)
    (hr : r + 2 < size) (hc : c < size) :
    ¬ (typeAt (initializeBoard rng size) r c =
        typeAt (initializeBoard rng size) (r + 1) c ∧
      typeAt (initializeBoard rng size) (r + 1) c =
        typeAt (initializeBoard rng size) (r + 2) c) := by
  rintro ⟨h1, h2⟩
  have havoid := initializeBoard_type_avoids rng size (r + 2) c (by omega) hc
  apply havoid
  unfold initForbidden
  apply List.mem_append_right
  rw [if_pos]
  · show typeAt (initializeBoard rng size) (r + 2) c ∈ [_]
    rw [← h2]
    exact List.mem_singleton.mpr rfl
  · exact ⟨by omega, h1.symm⟩

lemma findMatches_eq_nil_of_no_triples (board : Grid)
    (hH : ∀ row col, row < board.length → col < board.length - 2 →
      ¬ (typeAt board row col = typeAt board row (col + 1) ∧
        typeAt board row (col + 1) = typeAt board row (col + 2)))
    (hV : ∀ row col, col < board.length → row < board.length - 2 →
      ¬ (typeAt board row col = typeAt board (row + 1) col ∧
        typeAt board (row + 1) col = typeAt board (row + 2) col)) :
    findMatches board = [] := by
  simp only [findMatches]
  rw [foldl_eq_init _ _ _ ?hv, foldl_eq_init _ _ _ ?hh]
  case hv =>
    intro acc col hcol
    apply foldl_eq_init
    intro acc2 row hrow
    exact if_neg (hV row col (List.mem_range.mp hcol) (List.mem_range.mp hrow))
  case hh =>
    intro acc row hrow
    apply foldl_eq_init
    intro acc2 col hcol
    exact if_neg (hH row col (List.mem_range.mp hrow) (List.mem_range.mp hcol))

/-- C3: a freshly generated board contains no run of 3 or more same-type
pieces in any row or column: `findMatches (initializeBoard size)` is empty
for every grid size (7 to 10 and beyond) and every random oracle. -/
theorem C3_initializeBoard_no_matches (rng : Rng) (size : Nat) :
    findMatches (initializeBoard rng size) = [] := by
  have hlen := initializeBoard_length rng size
  apply findMatches_eq_nil_of_no_triples
  · intro row col h1 h2
    exact initializeBoard_no_htriple rng size row col (by omega) (by omega)
  · intro row col h1 h2
    exact initializeBoard_no_vtriple rng size row col (by omega) (by omega)

/-- C9: the forbidden list computed during board generation has at most 2
entries; an exclusion list of at most 2 of the 6 types leaves the
available-type list non-empty, so the fallback branch of
`generateRandomPiece` is unreachable there and the generated type avoids
the exclusion; consequently every piece placed by `initializeBoard` has a
type outside its cell's forbidden set. -/
theorem C9_generation_fallback_unreachable :
    (∀ board r c, (initForbidden board r c).length ≤ 2) ∧
    (∀ ex : List PieceType, ex.length ≤ 2 →
      PIECE_TYPES.filter (fun t => ¬ ex.contains t) ≠ [] ∧
      ∀ rng k r c, (generateRandomPiece rng k r c ex).type ∉ ex) ∧
    (∀ rng size r c, r < size → c < size →
      (pieceAt (initializeBoard rng size) r c).type ∉
        initForbidden (initializeBoard rng size) r c) := by
  refine ⟨initForbidden_length_le, ?_, ?_⟩
  · intro ex hex
    refine ⟨filter_piece_types_ne_nil ex hex, ?_⟩
    intro rng k r c
    exact generateRandomPiece_type_avoids rng k r c ex
      (filter_piece_types_ne_nil ex hex)
  · intro rng size r c hr hc
    exact initializeBoard_type_avoids rng size r c hr hc

/-- C9 witness: instantiated at a concrete exclusion list and a concrete
cell of a generated 7×7 board. -/
theorem C9_generation_fallback_unreachable_witness :
    (generateRandomPiece constRng 0 0 0 [PieceType.red, PieceType.blue]).type ∉
      ([PieceType.red, PieceType.blue] : List PieceType) ∧
    (pieceAt (initializeBoard constRng 7) 3 4).type ∉
      initForbidden (initializeBoard constRng 7) 3 4 := by
  refine ⟨(C9_generation_fallback_unreachable.2.1 _ (by decide)).2 constRng 0 0 0,
    C9_generation_fallback_unreachable.2.2 constRng 7 3 4 (by decide) (by decide)⟩

/- Specification of the compaction scan: lengths are preserved, the
survivor counter grows by at most the number of scanned rows, cells
outside the written band [length − s₂, length − s) of the column are
untouched, and every cell written inside that band holds a non-matched
piece. -/
lemma compactLoop_spec (matched : List Nat) (col : Nat) :
    ∀ r s b, r + s ≤ b.length → col < b.length →
      (∀ i, i < b.length → ((b[i]?).getD []).length = b.length) →
      (compactLoop matched col b r s).1.length = b.length ∧
      (∀ i, i < b.length →
        (((compactLoop matched col b r s).1[i]?).getD []).length = b.length) ∧
      s ≤ (compactLoop matched col b r s).2 ∧
      (compactLoop matched col b r s).2 ≤ s + r ∧
      (∀ i j, j ≠ col ∨ i < b.length - (compactLoop matched col b r s).2 ∨
          b.length - s ≤ i →
        pieceAt (compactLoop matched col b r s).1 i j = pieceAt b i j) ∧
      (∀ i, b.length - (compactLoop matched col b r s).2 ≤ i →
        i < b.length - s →
        matched.contains (pieceAt (compactLoop matched col b r s).1 i col).id
          = false) := by
  intro r
  induction r with
  | zero =>
    intro s b hr hcol hsq
    have h0 : compactLoop matched col b 0 s = (b, s) := rfl
    rw [h0]
    refine ⟨rfl, hsq, le_refl s, Nat.le_add_right s 0,
      fun i j hcond => rfl, ?_⟩
    intro i h1 h2
    have h1' : b.length - s ≤ i := h1
    omega
  | succ r ih =>
    intro s b hr hcol hsq
    have hunf : compactLoop matched col b (r + 1) s =
        if matched.contains (pieceAt b r col).id = true then
          compactLoop matched col b r s
        else
          compactLoop matched col
            (setCell b (b.length - 1 - s) col
              { pieceAt b r col with row := b.length - 1 - s }) r (s + 1) := by
      simp only [compactLoop]
    by_cases hm : matched.contains (pieceAt b r col).id = true
    · rw [hunf, if_pos hm]
      obtain ⟨c1, c2, c3, c4, c5, c6⟩ := ih s b (by omega) hcol hsq
      exact ⟨c1, c2, c3, by omega, c5, c6⟩
    · rw [hunf, if_neg hm]
      have hslt : s < b.length := by omega
      have hwp : b.length - 1 - s < b.length := by omega
      have hlen' : (setCell b (b.length - 1 - s) col
          { pieceAt b r col with row := b.length - 1 - s }).length = b.length :=
        length_setCell b _ col _
      have hsq' : ∀ i, i < (setCell b (b.length - 1 - s) col
            { pieceAt b r col with row := b.length - 1 - s }).length →
          (((setCell b (b.length - 1 - s) col
              { pieceAt b r col with row := b.length - 1 - s })[i]?).getD
            []).length =
          (setCell b (b.length - 1 - s) col
            { pieceAt b r col with row := b.length - 1 - s }).length := by
        intro i hi
        rw [hlen'] at hi
        rw [rowLength_setCell, hlen', hsq i hi]
      obtain ⟨c1, c2, c3, c4, c5, c6⟩ := ih (s + 1) _ (by rw [hlen']; omega)
        (by rw [hlen']; exact hcol) hsq'
      rw [hlen'] at c1 c2 c5 c6
      refine ⟨c1, c2, by omega, by omega, ?_, ?_⟩
      · intro i j hcond
        have hne : ¬(i = b.length - 1 - s ∧ j = col) := by
          rcases hcond with hj | hlt | hge
          · rintro ⟨hi0, hj0⟩
            exact hj hj0
          · rintro ⟨hi0, hj0⟩
            omega
          · rintro ⟨hi0, hj0⟩
            omega
        have hcond₂ : j ≠ col ∨
            i < b.length - (compactLoop matched col
              (setCell b (b.length - 1 - s) col
                { pieceAt b r col with row := b.length - 1 - s }) r (s + 1)).2 ∨
            b.length - (s + 1) ≤ i := by
          rcases hcond with hj | hlt | hge
          · exact Or.inl hj
          · exact Or.inr (Or.inl hlt)
          · exact Or.inr (Or.inr (by omega))
        rw [c5 i j hcond₂, pieceAt_setCell_ne b _ col _ i j hne]
      · intro i h1 h2
        by_cases hi : i < b.length - (s + 1)
        · exact c6 i h1 hi
        · have hieq : i = b.length - 1 - s := by omega
          subst hieq
          rw [c5 _ col (Or.inr (Or.inr (by omega)))]
          rw [pieceAt_setCell_self b _ col _ hwp (by rw [hsq _ hwp]; exact hcol)]
          exact Bool.eq_false_iff.mpr hm

/- Specification of the refill: the filled rows 0..cnt−1 of the column
receive freshly generated pieces (identities from the oracle's fresh
stream), all other cells are untouched, lengths are preserved. -/
lemma refillLoop_spec (rng : Rng) (matched : List Nat) (col : Nat)
    (hfresh : ∀ k, matched.contains (rng.fresh k) = false) :
    ∀ cnt b k, cnt ≤ b.length → col < b.length →
      (∀ i, i < b.length → ((b[i]?).getD []).length = b.length) →
      (refillLoop rng col b k cnt).1.length = b.length ∧
      (∀ i, i < b.length →
        (((refillLoop rng col b k cnt).1[i]?).getD []).length = b.length) ∧
      (∀ i j, ¬(j = col ∧ i < cnt) →
        pieceAt (refillLoop rng col b k cnt).1 i j = pieceAt b i j) ∧
      (∀ i, i < cnt →
        matched.contains
          (pieceAt (refillLoop rng col b k cnt).1 i col).id = false) := by
  intro cnt
  induction cnt with
  | zero =>
    intro b k hcnt hcol hsq
    have h0 : refillLoop rng col b k 0 = (b, k) := rfl
    rw [h0]
    exact ⟨rfl, hsq, fun i j hc => rfl, fun i hi => absurd hi (by omega)⟩
  | succ cnt ih =>
    intro b k hcnt hcol hsq
    have hunf : refillLoop rng col b k (cnt + 1) =
        refillLoop rng col
          (setCell b cnt col
            (generateRandomPiece rng k cnt col (getForbiddenTypes b cnt col)))
          (k + 1) cnt := by
      simp only [refillLoop]
    rw [hunf]
    have hlen' : (setCell b cnt col
        (generateRandomPiece rng k cnt col
          (getForbiddenTypes b cnt col))).length = b.length :=
      length_setCell b cnt col _
    have hsq' : ∀ i, i < (setCell b cnt col
          (generateRandomPiece rng k cnt col
            (getForbiddenTypes b cnt col))).length →
        (((setCell b cnt col (generateRandomPiece rng k cnt col
            (getForbiddenTypes b cnt col)))[i]?).getD []).length =
        (setCell b cnt col (generateRandomPiece rng k cnt col
          (getForbiddenTypes b cnt col))).length := by
      intro i hi
      rw [hlen'] at hi
      rw [rowLength_setCell, hlen', hsq i hi]
    obtain ⟨r1, r2, r3, r4⟩ := ih _ (k + 1) (by rw [hlen']; omega)
      (by rw [hlen']; exact hcol) hsq'
    rw [hlen'] at r1 r2
    refine ⟨r1, r2, ?_, ?_⟩
    · intro i j hc
      have hc₂ : ¬(j = col ∧ i < cnt) := by
        rintro ⟨hj0, hi0⟩
        exact hc ⟨hj0, by omega⟩
      have hne : ¬(i = cnt ∧ j = col) := by
        rintro ⟨hi0, hj0⟩
        exact hc ⟨hj0, by omega⟩
      rw [r3 i j hc₂, pieceAt_setCell_ne b cnt col _ i j hne]
    · intro i hi
      by_cases hic : i < cnt
      · exact r4 i hic
      · have hieq : i = cnt := by omega
        rw [hieq, r3 cnt col (by rintro ⟨hj0, hi0⟩; omega),
          pieceAt_setCell_self b cnt col _ (by omega)
            (by rw [hsq cnt (by omega)]; exact hcol)]
        exact hfresh k

/- One column pass (compaction followed by refill) leaves the whole column
free of matched identities and does not touch other columns. -/
lemma resolveColumn_spec (rng : Rng) (matched : List Nat)
    (hfresh : ∀ k, matched.contains (rng.fresh k) = false)
    (acc : Grid × Nat) (col : Nat)
    (hcol : col < acc.1.length)
    (hsq : ∀ i, i < acc.1.length →
      ((acc.1[i]?).getD []).length = acc.1.length) :
    (resolveColumn rng matched acc col).1.length = acc.1.length ∧
    (∀ i, i < acc.1.length →
      (((resolveColumn rng matched acc col).1[i]?).getD []).length =
        acc.1.length) ∧
    (∀ i j, j ≠ col →
      pieceAt (resolveColumn rng matched acc col).1 i j = pieceAt acc.1 i j) ∧
    (∀ i, i < acc.1.length →
      matched.contains
        (pieceAt (resolveColumn rng matched acc col).1 i col).id = false) := by
  obtain ⟨c1, c2, c3, c4, c5, c6⟩ :=
    compactLoop_spec matched col acc.1.length 0 acc.1 (by omega) hcol hsq
  have hunf : resolveColumn rng matched acc col =
      refillLoop rng col (compactLoop matched col acc.1 acc.1.length 0).1 acc.2
        (acc.1.length - (compactLoop matched col acc.1 acc.1.length 0).2) := rfl
  obtain ⟨r1, r2, r3, r4⟩ := refillLoop_spec rng matched col hfresh
    (acc.1.length - (compactLoop matched col acc.1 acc.1.length 0).2)
    (compactLoop matched col acc.1 acc.1.length 0).1 acc.2
    (by rw [c1]; omega) (by rw [c1]; exact hcol)
    (by
      intro i hi
      rw [c1] at hi
      rw [c1, c2 i hi])
  rw [c1] at r1 r2
  refine ⟨?_, ?_, ?_, ?_⟩
  · rw [hunf]
    exact r1
  · intro i hi
    rw [hunf]
    exact r2 i hi
  · intro i j hj
    rw [hunf, r3 i j (by rintro ⟨hj0, hi0⟩; exact hj hj0), c5 i j (Or.inl hj)]
  · intro i hi
    by_cases hic : i <
        acc.1.length - (compactLoop matched col acc.1 acc.1.length 0).2
    · rw [hunf]
      exact r4 i hic
    · rw [hunf, r3 i col (by rintro ⟨hj0, hi0⟩; exact hic hi0)]
      exact c6 i (by omega) (by omega)

lemma foldColumns_spec (rng : Rng) (matched : List Nat)
    (hfresh : ∀ k, matched.contains (rng.fresh k) = false) :
    ∀ (cols : List Nat) (acc : Grid × Nat),
      (∀ c ∈ cols, c < acc.1.length) →
      (∀ i, i < acc.1.length → ((acc.1[i]?).getD []).length = acc.1.length) →
      (cols.foldl (resolveColumn rng matched) acc).1.length = acc.1.length ∧
      (∀ i j, j ∈ cols → i < acc.1.length →
        matched.contains
          (pieceAt (cols.foldl (resolveColumn rng matched) acc).1 i j).id
          = false) ∧
      (∀ i j, j ∉ cols →
        pieceAt (cols.foldl (resolveColumn rng matched) acc).1 i j =
          pieceAt acc.1 i j) := by
  intro cols
  induction cols with
  | nil =>
    intro acc h1 h2
    exact ⟨rfl, fun i j hj hi => absurd hj (by simp), fun i j hj => rfl⟩
  | cons c t ih =>
    intro acc hc hsq
    obtain ⟨s1, s2, s3, s4⟩ :=
      resolveColumn_spec rng matched hfresh acc c (hc c (by simp)) hsq
    have hc₂ : ∀ x ∈ t, x < (resolveColumn rng matched acc c).1.length := by
      intro x hx
      rw [s1]
      exact hc x (by simp [hx])
    have hsq₂ : ∀ i, i < (resolveColumn rng matched acc c).1.length →
        (((resolveColumn rng matched acc c).1[i]?).getD []).length =
        (resolveColumn rng matched acc c).1.length := by
      intro i hi
      rw [s1] at hi
      rw [s1, s2 i hi]
    obtain ⟨i1, i2, i3⟩ := ih (resolveColumn rng matched acc c) hc₂ hsq₂
    rw [List.foldl_cons]
    refine ⟨?_, ?_, ?_⟩
    · rw [i1, s1]
    · intro i j hj hi
      rcases List.mem_cons.mp hj with hj0 | hj0
      · by_cases hjt : j ∈ t
        · exact i2 i j hjt (by rw [s1]; exact hi)
        · rw [i3 i j hjt, hj0]
          exact s4 i hi
      · exact i2 i j hj0 (by rw [s1]; exact hi)
    · intro i j hj
      have hjc : j ≠ c := fun h => hj (by simp [h])
      have hjt : j ∉ t := fun h => hj (by simp [h])
      rw [i3 i j hjt, s3 i j hjc]

/-- C1 amended: `removeMatchedAndApplyGravity` removes every matched
piece — on a square board, with a refill oracle whose fresh identities lie
outside the matched set, no cell of the resolved grid carries a matched
identity.  The resolved grid may nevertheless still contain matches
(gravity can stack surviving same-type pieces, as the counterexample
shows), which the orchestrator handles by re-running detection. -/
theorem C1_resolve_removes_matched_amended (rng : Rng) (board : Grid)
    (matched : List Nat)
    (hsq : ∀ i, i < board.length → ((board[i]?).getD []).length = board.length)
    (hfresh : ∀ k, matched.contains (rng.fresh k) = false) :
    ∀ i j, i < board.length → j < board.length →
      matched.contains
        (pieceAt (removeMatchedAndApplyGravity rng board matched) i j).id
        = false := by
  intro i j hi hj
  unfold removeMatchedAndApplyGravity
  have hmain := foldColumns_spec rng matched hfresh (List.range board.length)
    (board, 0) (fun c hcm => List.mem_range.mp hcm) hsq
  exact hmain.2.1 i j (List.mem_range.mpr hj) hi

/-- C1 witness: on the counterexample board, the resolved grid holds no
piece with a matched identity; shown at cell (3, 0). -/
theorem C1_resolve_removes_matched_amended_witness :
    ([8, 9, 10] : List Nat).contains
      (pieceAt (removeMatchedAndApplyGravity constRng cascadeBoard [8, 9, 10])
        3 0).id = false := by
  have hsq : ∀ i, i < cascadeBoard.length →
      ((cascadeBoard[i]?).getD []).length = cascadeBoard.length := by
    intro i hi
    have h4 : cascadeBoard.length = 4 := rfl
    rw [h4] at hi ⊢
    interval_cases i <;> rfl
  have hfresh : ∀ k, ([8, 9, 10] : List Nat).contains (constRng.fresh k)
      = false := by
    intro k
    rw [Bool.eq_false_iff]
    intro hcon
    rw [contains_iff_mem_nat] at hcon
    have hk : constRng.fresh k = 100 + k := rfl
    rw [hk] at hcon
    simp at hcon
    omega
  exact C1_resolve_removes_matched_amended constRng cascadeBoard [8, 9, 10]
    hsq hfresh 3 0 (by decide) (by decide)
